import Mathlib

/-!
Verification of the llm-steg steganographic codec core: a shallow embedding of
`src/algorithms/lsb.ts` (the LSB bit-embedding codec) and of the engine in
`core/steg-engine.ts` (cover-pool management, round-robin selection, error
policy), together with theorems settling the specification's claims.

Node `Buffer`s are modelled as `List Nat` whose elements are bytes (`< 256`);
JavaScript 32-bit signed integer operations are modelled explicitly on
`Nat`/`Int`, and exceptions are modelled with `Except String`.
-/

set_option maxHeartbeats 1000000
set_option maxRecDepth 10000

deriving instance DecidableEq for Except

namespace LlmSteg

/-- A Node.js `Buffer`: a sequence of bytes. Byte-ness (`b < 256`) is carried as
an explicit hypothesis where a proof needs it. -/
abbrev Buffer := List Nat

/-- Every element of the buffer is an actual byte value. -/
def isByteBuffer (l : Buffer) : Prop := ∀ b ∈ l, b < 256

instance (l : Buffer) : Decidable (isByteBuffer l) := by
  unfold isByteBuffer; infer_instance

namespace LSB

/-- `const HEADER_SIZE_BYTES = 4` (lsb.ts). -/
def HEADER_SIZE_BYTES : Nat := 4

/-- `const HEADER_SIZE_BITS = HEADER_SIZE_BYTES * 8` (lsb.ts). -/
def HEADER_SIZE_BITS : Nat := HEADER_SIZE_BYTES * 8

/-- JavaScript `ToInt32`: reinterpret the low 32 bits of a nonnegative exact
number as a signed 32-bit integer.  Used to model the signed results of the
JS bitwise operators `<<`, `>>`, `|`. -/
def jsToInt32 (n : Nat) : Int :=
  let m := n % 4294967296
  if m < 2147483648 then (m : Int) else (m : Int) - 4294967296

/-- The value of the JS expression `(length >> i) & 1` for an exact nonnegative
`length` and `0 ≤ i < 32`: `>>` first converts `length` by `ToInt32` and then
arithmetic-shifts, and `& 1` extracts a bit of the 32-bit two's-complement
pattern, which is bit `i` of `length mod 2^32`. -/
def jsBit (length i : Nat) : Nat := (length % 4294967296) / 2 ^ i % 2

/-- `encodeLengthHeader` (lsb.ts lines 157-165): for `i < 32`, set the LSB of
cover byte `i` to bit `i` of the payload length:
`cover[i] = (cover[i] & 0xFE) | bit`. -/
def encodeLengthHeader (cover : Buffer) (length : Nat) : Buffer :=
  (List.range HEADER_SIZE_BITS).foldl
    (fun c i => c.set i ((c.getD i 0 &&& 0xFE) ||| jsBit length i)) cover

/-- The payload bit written at payload bit-index `i`:
`(data[Math.floor(i/8)] >> (i % 8)) & 1` (lsb.ts line 67). -/
def payloadBit (data : Buffer) (i : Nat) : Nat :=
  (data.getD (i / 8) 0) >>> (i % 8) &&& 1

/-- The payload-embedding loop of `encode` (lsb.ts lines 61-71): for each
payload bit-index `i`, set the LSB of cover byte `i + HEADER_SIZE_BITS`. -/
def encodePayload (data result : Buffer) : Buffer :=
  (List.range (data.length * 8)).foldl
    (fun r i =>
      r.set (i + HEADER_SIZE_BITS)
        ((r.getD (i + HEADER_SIZE_BITS) 0 &&& 0xFE) ||| payloadBit data i))
    result

/-- `LSBAlgorithm.encode` (lsb.ts lines 45-74).  The `Buffer.from(cover)` copy
is implicit in the purely functional embedding (the input list is never
modified); a thrown `Error` is modelled as `Except.error` of its message. -/
def encode (data cover : Buffer) : Except String Buffer :=
  if cover.length < (data.length + HEADER_SIZE_BYTES) * 8 then
    .error ("Cover media too small: needs " ++
      toString ((data.length + HEADER_SIZE_BYTES) * 8) ++
      " bytes, got " ++ toString cover.length)
  else
    .ok (encodePayload data (encodeLengthHeader cover data.length))

/-- The 32 header bits collected by `decodeLengthHeader` (lsb.ts lines 167-178)
as an unsigned value: `length |= (1 << i)` whenever `stegData[i] & 1 === 1`. -/
def decodeLengthHeaderRaw (stegData : Buffer) : Nat :=
  (List.range HEADER_SIZE_BITS).foldl
    (fun length i =>
      if stegData.getD i 0 &&& 1 = 1 then length ||| (1 <<< i) else length) 0

/-- `decodeLengthHeader` (lsb.ts lines 167-178).  JS `|=` operates on signed
32-bit integers, so `1 << 31` makes the accumulated value negative: the result
is the two's-complement reinterpretation of the 32 collected bits. -/
def decodeLengthHeader (stegData : Buffer) : Int :=
  jsToInt32 (decodeLengthHeaderRaw stegData)

/-- One iteration of the payload-extraction loop of `decode` (lsb.ts lines
102-114): `if ((stegData[i + 32] & 1) === 1) result[i/8] |= 1 << (i % 8)`. -/
def decodeStep (stegData : Buffer) (r : Buffer) (i : Nat) : Buffer :=
  if stegData.getD (i + HEADER_SIZE_BITS) 0 &&& 1 = 1 then
    r.set (i / 8) ((r.getD (i / 8) 0) ||| (1 <<< (i % 8)))
  else r

/-- `LSBAlgorithm.decode` (lsb.ts lines 79-117).  `maxPossibleLength` is the
exact real value `(stegData.length - 32) / 8` (JS divides doubles; the values
involved are exactly representable), modelled as a rational; the reported
maximum `Math.floor(maxPossibleLength)` equals `Int.fdiv (len - 32) 8`. -/
def decode (stegData : Buffer) : Except String Buffer :=
  if stegData.length < HEADER_SIZE_BITS then
    .error "Data too small to contain valid steganographic content"
  else
    if decodeLengthHeader stegData ≤ 0 then
      .error "Invalid data length: zero or negative"
    else
      if (decodeLengthHeader stegData : Rat) >
          ((stegData.length : Rat) - (HEADER_SIZE_BITS : Rat)) / 8 then
        .error ("Invalid data length: " ++ toString (decodeLengthHeader stegData) ++
          " exceeds maximum " ++
          toString (Int.fdiv ((stegData.length : Int) - (HEADER_SIZE_BITS : Int)) 8))
      else
        .ok ((List.range ((decodeLengthHeader stegData).toNat * 8)).foldl
          (decodeStep stegData)
          (List.replicate (decodeLengthHeader stegData).toNat 0))

/-- `LSBAlgorithm.calculateCapacity` (lsb.ts lines 122-127):
`Math.max(0, Math.floor((cover.length - HEADER_SIZE_BITS) / 8))`. -/
def calculateCapacity (cover : Buffer) : Int :=
  max 0 (Int.fdiv ((cover.length : Int) - (HEADER_SIZE_BITS : Int)) 8)

end LSB

/-! ## The engine (`core/steg-engine.ts`) -/

/-- The `onError` policy of `StegConfig`. -/
inductive OnErrorPolicy
  | passthrough
  | drop
  | throw
deriving DecidableEq

/-- A normalized `CoverMedia` entry as held in the engine's pool (after
`normalizeSingleCover`, `capacity` is always a number). -/
structure CoverMedia where
  data : Buffer
  type : String
  capacity : Int
deriving DecidableEq

/-- A `CoverMedia` object as supplied by a caller (its `capacity` field is
optional in the TS interface). -/
structure CoverMediaInput where
  data : Buffer
  type : String
  capacity : Option Int
deriving DecidableEq

/-- Either form accepted by `addCoverMedia` / the `coverMedia` config list:
a raw `Buffer` or a `CoverMedia` object. -/
inductive CoverInput
  | buffer (b : Buffer)
  | media (m : CoverMediaInput)
deriving DecidableEq

/-- The engine's effective configuration (the fields the core behavior reads;
`seed`, `debug` and the LLM-related fields never influence encode/decode
results). -/
structure StegConfig where
  enabled : Bool
  algorithm : String
  coverMedia : List CoverInput
  onError : OnErrorPolicy
deriving DecidableEq

/-- A partial configuration as accepted by the constructor and
`updateConfig`: `none` models an absent field. -/
structure PartialStegConfig where
  enabled : Option Bool := none
  algorithm : Option String := none
  coverMedia : Option (List CoverInput) := none
  onError : Option OnErrorPolicy := none
deriving DecidableEq

/-- The `StegAlgorithm` interface: a codec throwing an `Error` is modelled by
`Except.error` of the message. -/
structure StegAlgorithm where
  name : String
  encode : Buffer → Buffer → Except String Buffer
  decode : Buffer → Except String Buffer
  calculateCapacity : Buffer → Int

/-- `StegEncodeResult`.  A success result carries `error := none`. -/
structure StegEncodeResult where
  data : Buffer
  payloadSize : Nat
  coverSize : Nat
  algorithm : String
  success : Bool
  error : Option String
deriving DecidableEq

/-- `StegDecodeResult`. -/
structure StegDecodeResult where
  data : Buffer
  payloadSize : Nat
  algorithm : String
  success : Bool
  error : Option String
deriving DecidableEq

/-- The mutable state of a `StegEngine` instance. -/
structure StegEngine where
  config : StegConfig
  algorithm : Option StegAlgorithm
  coverMediaPool : List CoverMedia
  coverIndex : Nat

/-- The codec-or-heuristic capacity used by `normalizeSingleCover`
(steg-engine.ts lines 309-311 and 321-325): the active codec's
`calculateCapacity` when set, else the default LSB estimate
`Math.floor((length - 4) / 8)`. -/
def capacityFor (alg : Option StegAlgorithm) (b : Buffer) : Int :=
  match alg with
  | some a => a.calculateCapacity b
  | none => Int.fdiv ((b.length : Int) - 4) 8

/-- `StegEngine.normalizeSingleCover` (steg-engine.ts lines 307-334).  The
`null` branch for non-object inputs is unreachable for well-typed inputs, so
both constructors normalize to `some`. -/
def normalizeSingleCover (alg : Option StegAlgorithm) :
    CoverInput → Option CoverMedia
  | .buffer b => some { data := b, type := "binary", capacity := capacityFor alg b }
  | .media m =>
      some { data := m.data, type := m.type
             capacity := m.capacity.getD (capacityFor alg m.data) }

/-- `StegEngine.normalizeCoverMedia` (steg-engine.ts lines 296-305): rebuild
the pool from a list of cover inputs. -/
def normalizeCoverMediaPool (alg : Option StegAlgorithm)
    (media : List CoverInput) : List CoverMedia :=
  media.filterMap (normalizeSingleCover alg)

/-- The defaults applied by the `StegEngine` constructor
(steg-engine.ts lines 49-60). -/
def applyDefaults (c : PartialStegConfig) : StegConfig :=
  { enabled := c.enabled.getD true
    algorithm := c.algorithm.getD "lsb"
    coverMedia := c.coverMedia.getD []
    onError := c.onError.getD .passthrough }

/-- `new StegEngine(config)` (steg-engine.ts lines 45-71): defaults applied,
no algorithm yet, pool normalized (with `this.algorithm` still `null`),
cursor at 0. -/
def StegEngine.init (c : PartialStegConfig) : StegEngine :=
  let config := applyDefaults c
  { config := config
    algorithm := none
    coverMediaPool := normalizeCoverMediaPool none config.coverMedia
    coverIndex := 0 }

/-- `StegEngine.setAlgorithm` (steg-engine.ts lines 76-82); seed propagation
has no modelled effect. -/
def StegEngine.setAlgorithm (e : StegEngine) (alg : StegAlgorithm) : StegEngine :=
  { e with algorithm := some alg }

/-- `StegEngine.getNextCover` (steg-engine.ts lines 284-294).  JS indexing
`pool[coverIndex]` yields `undefined` when the cursor is out of range, hence
the `Option` in the first component. -/
def StegEngine.getNextCover (e : StegEngine) : Option CoverMedia × StegEngine :=
  if e.coverMediaPool.length = 0 then (none, e)
  else
    (e.coverMediaPool[e.coverIndex]?,
     { e with coverIndex := (e.coverIndex + 1) % e.coverMediaPool.length })

/-- `StegEngine.handleError` (steg-engine.ts lines 336-366): `throw` raises
(modelled as `Except.error`), `drop` returns an empty failure result,
`passthrough` (also the `default` case) returns the original payload in a
failure result. -/
def StegEngine.handleError (e : StegEngine) (message : String)
    (originalData : Buffer) : Except String StegEncodeResult :=
  match e.config.onError with
  | .throw => .error message
  | .drop =>
      .ok { data := [], payloadSize := 0, coverSize := 0
            algorithm := e.config.algorithm, success := false
            error := some message }
  | .passthrough =>
      .ok { data := originalData, payloadSize := originalData.length
            coverSize := originalData.length
            algorithm := e.config.algorithm, success := false
            error := some message }

/-- `StegEngine.encode` (steg-engine.ts lines 94-159).  Returns the result
together with the updated engine state; a `throw`-policy failure is the
`Except.error` case. -/
def StegEngine.encode (e : StegEngine) (data : Buffer) :
    Except String (StegEncodeResult × StegEngine) :=
  if e.config.enabled = false then
    .ok ({ data := data, payloadSize := data.length, coverSize := data.length
           algorithm := e.config.algorithm, success := true, error := none }, e)
  else
    match e.algorithm with
    | none => (e.handleError "No algorithm set" data).map (fun r => (r, e))
    | some alg =>
      match e.getNextCover with
      | (none, e2) =>
          (e2.handleError "No cover media available" data).map (fun r => (r, e2))
      | (some cover, e2) =>
        if (data.length : Int) > alg.calculateCapacity cover.data then
          (e2.handleError
            ("Data too large: " ++ toString data.length ++ " bytes > " ++
              toString (alg.calculateCapacity cover.data) ++ " capacity")
            data).map (fun r => (r, e2))
        else
          match alg.encode data cover.data with
          | .ok encoded =>
              .ok ({ data := encoded, payloadSize := data.length
                     coverSize := cover.data.length
                     algorithm := e.config.algorithm, success := true
                     error := none }, e2)
          | .error msg =>
              (e2.handleError ("Encoding failed: " ++ msg) data).map
                (fun r => (r, e2))

/-- `StegEngine.decode` (steg-engine.ts lines 164-217).  Decode never routes
through `handleError`: every failure is returned as a failure result with
empty `data`, for every `onError` policy, and nothing is thrown. -/
def StegEngine.decode (e : StegEngine) (stegData : Buffer) : StegDecodeResult :=
  if e.config.enabled = false then
    { data := stegData, payloadSize := stegData.length
      algorithm := e.config.algorithm, success := true, error := none }
  else
    match e.algorithm with
    | none =>
        { data := [], payloadSize := 0, algorithm := e.config.algorithm
          success := false, error := some "No algorithm set" }
    | some alg =>
      match alg.decode stegData with
      | .ok decoded =>
          { data := decoded, payloadSize := decoded.length
            algorithm := e.config.algorithm, success := true, error := none }
      | .error msg =>
          { data := [], payloadSize := 0, algorithm := e.config.algorithm
            success := false, error := some ("Decoding failed: " ++ msg) }

/-- `StegEngine.addCoverMedia` (steg-engine.ts lines 222-231). -/
def StegEngine.addCoverMedia (e : StegEngine) (media : CoverInput) : StegEngine :=
  match normalizeSingleCover e.algorithm media with
  | some n => { e with coverMediaPool := e.coverMediaPool ++ [n] }
  | none => e

/-- `Object.assign(this.config, config)`: replace exactly the supplied
fields. -/
def mergeConfig (c : StegConfig) (p : PartialStegConfig) : StegConfig :=
  { enabled := p.enabled.getD c.enabled
    algorithm := p.algorithm.getD c.algorithm
    coverMedia := p.coverMedia.getD c.coverMedia
    onError := p.onError.getD c.onError }

/-- `StegEngine.updateConfig` (steg-engine.ts lines 243-256): merge the partial
config; when `coverMedia` was supplied (a JS array is truthy, even empty),
rebuild the pool from the merged config.  Note the code never touches
`coverIndex` here. -/
def StegEngine.updateConfig (e : StegEngine) (p : PartialStegConfig) : StegEngine :=
  let config := mergeConfig e.config p
  let e' := { e with config := config }
  if p.coverMedia.isSome then
    { e' with
        coverMediaPool := normalizeCoverMediaPool e'.algorithm config.coverMedia }
  else e'

/-- The value returned by `getPoolStats`. -/
structure PoolStats where
  size : Nat
  totalCapacity : Int
  averageCapacity : Int
deriving DecidableEq

/-- `StegEngine.getPoolStats` (steg-engine.ts lines 261-278).  Pooled entries
always carry a numeric capacity, so the `?? 0` in the reduction is the
identity; `Math.floor` of the possibly negative average is `Int.fdiv`. -/
def StegEngine.getPoolStats (e : StegEngine) : PoolStats :=
  let totalCapacity := e.coverMediaPool.foldl (fun sum c => sum + c.capacity) 0
  { size := e.coverMediaPool.length
    totalCapacity := totalCapacity
    averageCapacity :=
      if e.coverMediaPool.length > 0 then
        Int.fdiv totalCapacity (e.coverMediaPool.length : Int)
      else 0 }

/-- The shipped LSB codec, packaged as a `StegAlgorithm` (lsb.ts lines
31-179). -/
def lsbAlgorithm : StegAlgorithm :=
  { name := "lsb"
    encode := LSB.encode
    decode := LSB.decode
    calculateCapacity := LSB.calculateCapacity }

/-- Spec-side description of the error-policy matrix (spec sections 4.2 and 8):
given the configured policy, a failure with message `msg` during `encode` of
`originalData` yields — `passthrough`: a failure result whose `data` is the
original payload; `drop`: a failure result with empty `data` and
`payloadSize = 0`; `throw`: a raised error.  `e'` is the engine state at the
failure site. -/
def specPolicyOutcome (policy : OnErrorPolicy) (algName : String)
    (originalData : Buffer) (msg : String) (e' : StegEngine) :
    Except String (StegEncodeResult × StegEngine) :=
  match policy with
  | .throw => .error msg
  | .drop =>
      .ok ({ data := [], payloadSize := 0, coverSize := 0, algorithm := algName
             success := false, error := some msg }, e')
  | .passthrough =>
      .ok ({ data := originalData, payloadSize := originalData.length
             coverSize := originalData.length, algorithm := algName
             success := false, error := some msg }, e')

/-! ## List update helpers -/

lemma getD_set_self (l : List Nat) (i : Nat) (a : Nat) :
    (l.set i a).getD i 0 = if i < l.length then a else l.getD i 0 := by
  by_cases h : i < l.length
  · simp [List.getD_eq_getElem?_getD, List.getElem?_set_self h, h]
  · rw [List.set_eq_of_length_le (Nat.le_of_not_lt h)]
    simp [h]

lemma getD_set_ne (l : List Nat) {i j : Nat} (a : Nat) (h : i ≠ j) :
    (l.set i a).getD j 0 = l.getD j 0 := by
  simp [List.getD_eq_getElem?_getD, List.getElem?_set_ne h]

lemma length_foldl_set (f : Nat → Nat → Nat) :
    ∀ (idxs : List Nat) (l : List Nat),
      (idxs.foldl (fun r i => r.set i (f i (r.getD i 0))) l).length = l.length
  | [], _ => rfl
  | i :: rest, l => by
      rw [List.foldl_cons, length_foldl_set f rest, List.length_set]

/-- A left fold that, at each index of a duplicate-free index list, replaces
the element by a function of the index and the element: every cell is written
at most once, so the final cell values are determined by the original list. -/
lemma getD_foldl_set (f : Nat → Nat → Nat) :
    ∀ (idxs : List Nat), idxs.Nodup → ∀ (l : List Nat) (j : Nat),
      (idxs.foldl (fun r i => r.set i (f i (r.getD i 0))) l).getD j 0 =
        if j ∈ idxs ∧ j < l.length then f j (l.getD j 0) else l.getD j 0
  | [], _, l, j => by simp
  | i :: rest, hnd, l, j => by
      rw [List.nodup_cons] at hnd
      rw [List.foldl_cons,
        getD_foldl_set f rest hnd.2 (l.set i (f i (l.getD i 0))) j]
      by_cases hjr : j ∈ rest
      · have hij : i ≠ j := fun h => hnd.1 (h ▸ hjr)
        simp only [List.length_set, getD_set_ne l _ hij, hjr, true_and,
          List.mem_cons, or_true]
      · by_cases hij : j = i
        · subst hij
          simp only [hjr, false_and, if_false, List.length_set,
            getD_set_self, List.mem_cons, true_or, true_and]
        · rw [getD_set_ne l _ (fun h => hij h.symm)]
          simp only [List.length_set, hjr, false_and, if_false, List.mem_cons,
            or_false]
          simp [hij]

/-! ## Characterizing `LSB.encode` cell by cell -/

namespace LSB

lemma HEADER_SIZE_BITS_eq : HEADER_SIZE_BITS = 32 := rfl

lemma encodeLengthHeader_length (cover : Buffer) (L : Nat) :
    (encodeLengthHeader cover L).length = cover.length :=
  length_foldl_set (fun i v => (v &&& 0xFE) ||| jsBit L i)
    (List.range HEADER_SIZE_BITS) cover

lemma encodeLengthHeader_getD (cover : Buffer) (L j : Nat) :
    (encodeLengthHeader cover L).getD j 0 =
      if j < 32 ∧ j < cover.length then (cover.getD j 0 &&& 0xFE) ||| jsBit L j
      else cover.getD j 0 := by
  have h := getD_foldl_set (fun i v => (v &&& 0xFE) ||| jsBit L i)
    (List.range HEADER_SIZE_BITS) (List.nodup_range _) cover j
  simpa [encodeLengthHeader, List.mem_range, HEADER_SIZE_BITS_eq] using h

lemma encodePayload_eq (data result : Buffer) :
    encodePayload data result =
      ((List.range (data.length * 8)).map (fun i => i + HEADER_SIZE_BITS)).foldl
        (fun r j =>
          r.set j ((r.getD j 0 &&& 0xFE) ||| payloadBit data (j - HEADER_SIZE_BITS)))
        result := by
  unfold encodePayload
  rw [List.foldl_map]
  congr 1

lemma encodePayload_length (data result : Buffer) :
    (encodePayload data result).length = result.length := by
  rw [encodePayload_eq]
  exact length_foldl_set
    (fun j v => (v &&& 0xFE) ||| payloadBit data (j - HEADER_SIZE_BITS))
    ((List.range (data.length * 8)).map (fun i => i + HEADER_SIZE_BITS)) result

lemma encodePayload_getD (data result : Buffer) (j : Nat) :
    (encodePayload data result).getD j 0 =
      if (32 ≤ j ∧ j < data.length * 8 + 32) ∧ j < result.length then
        (result.getD j 0 &&& 0xFE) ||| payloadBit data (j - 32)
      else result.getD j 0 := by
  rw [encodePayload_eq]
  have h := getD_foldl_set
    (fun i v => (v &&& 0xFE) ||| payloadBit data (i - HEADER_SIZE_BITS))
    ((List.range (data.length * 8)).map (fun i => i + HEADER_SIZE_BITS))
    (List.Nodup.map (fun a b hab => by omega) (List.nodup_range _)) result j
  have hmem : (j ∈ (List.range (data.length * 8)).map
      (fun i => i + HEADER_SIZE_BITS)) ↔ 32 ≤ j ∧ j < data.length * 8 + 32 := by
    simp only [List.mem_map, List.mem_range, HEADER_SIZE_BITS_eq]
    constructor
    · rintro ⟨i, hi, rfl⟩; omega
    · rintro ⟨h1, h2⟩; exact ⟨j - 32, by omega, by omega⟩
  simp only [hmem] at h
  simpa [HEADER_SIZE_BITS_eq] using h

/-- The successful result of `encode`. -/
lemma encode_ok {data cover : Buffer} (h : (data.length + 4) * 8 ≤ cover.length) :
    encode data cover = .ok (encodePayload data (encodeLengthHeader cover data.length)) := by
  unfold encode
  rw [if_neg]
  simp only [HEADER_SIZE_BYTES]
  omega

lemma encode_err {data cover : Buffer} (h : cover.length < (data.length + 4) * 8) :
    ∃ msg, encode data cover = .error msg := by
  unfold encode
  rw [if_pos (by simp only [HEADER_SIZE_BYTES]; omega)]
  exact ⟨_, rfl⟩

lemma encodeResult_length (data cover : Buffer) :
    (encodePayload data (encodeLengthHeader cover data.length)).length = cover.length := by
  rw [encodePayload_length, encodeLengthHeader_length]

/-- The value of each byte of the encoded output: header bytes carry a length
bit in bit 0, payload-region bytes carry a payload bit in bit 0, everything
else is the untouched cover byte. -/
lemma encodeResult_getD (data cover : Buffer) (j : Nat) :
    (encodePayload data (encodeLengthHeader cover data.length)).getD j 0 =
      if j < cover.length then
        if j < 32 then (cover.getD j 0 &&& 0xFE) ||| jsBit data.length j
        else if j < data.length * 8 + 32 then
          (cover.getD j 0 &&& 0xFE) ||| payloadBit data (j - 32)
        else cover.getD j 0
      else cover.getD j 0 := by
  rw [encodePayload_getD, encodeLengthHeader_length, encodeLengthHeader_getD]
  by_cases hj : j < cover.length
  · by_cases h32 : j < 32
    · have h1 : ¬ 32 ≤ j := by omega
      simp [hj, h32, h1]
    · by_cases hpl : j < data.length * 8 + 32
      · have h1 : 32 ≤ j := by omega
        simp [hj, h32, hpl, h1]
      · simp [hj, h32, hpl]
  · simp [hj]

end LSB

/-! ## Bit arithmetic -/

lemma lor_two_pow_of_lt {a c : Nat} (h : a < 2 ^ c) : a ||| 2 ^ c = a + 2 ^ c := by
  apply Nat.eq_of_testBit_eq
  intro j
  rw [Nat.testBit_lor, Nat.add_comm]
  rcases Nat.lt_trichotomy j c with hj | hj | hj
  · rw [Nat.testBit_two_pow_add_gt hj, Nat.testBit_two_pow_of_ne (by omega),
      Bool.or_false]
  · subst hj
    rw [Nat.testBit_two_pow_add_eq, Nat.testBit_lt_two_pow h,
      Nat.testBit_two_pow_self, Bool.false_or]
    rfl
  · have h1 : 2 ^ c + a < 2 ^ j := by
      calc 2 ^ c + a < 2 ^ c + 2 ^ c := by omega
      _ = 2 ^ (c + 1) := by ring
      _ ≤ 2 ^ j := Nat.pow_le_pow_right (by norm_num) (by omega)
    rw [Nat.testBit_lt_two_pow h1, Nat.testBit_two_pow_of_ne (by omega),
      Nat.testBit_lt_two_pow (lt_trans h (Nat.pow_lt_pow_right (by norm_num) hj)),
      Bool.or_false]

lemma land_one_le_one (a : Nat) : a &&& 1 ≤ 1 := by
  rw [Nat.and_one_is_mod]
  omega

/-- Bit 0 of `(a &&& 0xFE) ||| b` is `b`, for a single bit `b`. -/
lemma land_FE_lor_land_one (a b : Nat) (hb : b ≤ 1) :
    ((a &&& 0xFE) ||| b) &&& 1 = b := by
  have h0 : (a &&& 0xFE) % 2 = 0 := by
    rw [← Nat.and_one_is_mod, Nat.and_assoc]
    norm_num
  have ht := Nat.testBit_lor (a &&& 0xFE) b 0
  simp only [Nat.testBit_to_div_mod, Nat.pow_zero, Nat.div_one] at ht
  have hiff : ((a &&& 0xFE ||| b) % 2 = 1) ↔
      ((a &&& 0xFE) % 2 = 1 ∨ b % 2 = 1) := by
    have h2 := congrArg (fun z => z = true) ht
    simp only [decide_eq_true_eq, Bool.or_eq_true, eq_iff_iff] at h2
    exact h2
  rw [Nat.and_one_is_mod]
  interval_cases b
  · have hnot : ¬ ((a &&& 0xFE ||| 0) % 2 = 1) := by
      rw [hiff]
      omega
    omega
  · have hyes : (a &&& 0xFE ||| 1) % 2 = 1 := by
      rw [hiff]
      omega
    omega

lemma jsToInt32_of_lt {n : Nat} (h : n < 2147483648) :
    LSB.jsToInt32 n = (n : Int) := by
  unfold LSB.jsToInt32
  rw [Nat.mod_eq_of_lt (by omega)]
  rw [if_pos h]

/-- Bits accumulate below their weight: `∑ b < t, g b * 2^b < 2^t` when every
`g b` is a single bit. -/
lemma sum_bits_lt (g : Nat → Nat) (hg : ∀ b, g b ≤ 1) :
    ∀ t : Nat, ∑ b ∈ Finset.range t, g b * 2 ^ b < 2 ^ t
  | 0 => by simp
  | t + 1 => by
      rw [Finset.sum_range_succ]
      have h1 := sum_bits_lt g hg t
      have h2 : g t * 2 ^ t ≤ 2 ^ t := by
        have := hg t
        calc g t * 2 ^ t ≤ 1 * 2 ^ t := Nat.mul_le_mul_right _ this
        _ = 2 ^ t := Nat.one_mul _
      have : (2 : Nat) ^ (t + 1) = 2 ^ t + 2 ^ t := by ring
      omega

/-- Reassembling a number from its binary digits. -/
lemma sum_div_pow_mod : ∀ (k n : Nat), n < 2 ^ k →
    ∑ i ∈ Finset.range k, n / 2 ^ i % 2 * 2 ^ i = n
  | 0, n, h => by
      simp only [Finset.range_zero, Finset.sum_empty]
      omega
  | k + 1, n, h => by
      rw [Finset.sum_range_succ']
      have ih := sum_div_pow_mod k (n / 2) (by
        have : 2 ^ (k + 1) = 2 ^ k * 2 := by ring
        omega)
      have heq : ∀ i, n / 2 ^ (i + 1) % 2 * 2 ^ (i + 1) =
          (n / 2) / 2 ^ i % 2 * 2 ^ i * 2 := by
        intro i
        rw [Nat.div_div_eq_div_mul, pow_succ, Nat.mul_comm (2 ^ i) 2]
        ring
      simp only [heq]
      rw [← Finset.sum_mul, ih]
      simp only [Nat.pow_zero, Nat.mul_one, Nat.div_one]
      omega

lemma getD_mem {l : Buffer} {j : Nat} (h : j < l.length) : l.getD j 0 ∈ l := by
  rw [List.getD_eq_getElem?_getD, List.getElem?_eq_getElem h]
  exact List.getElem_mem h

/-- Clearing bit 0 and or-ing in a single bit leaves bits 1-7 unchanged. -/
lemma land_FE_lor_div_two {a b : Nat} (ha : a < 256) (hb : b ≤ 1) :
    ((a &&& 0xFE) ||| b) / 2 = a / 2 := by
  have h : ∀ x, x < 256 → ∀ y, y < 2 → ((x &&& 0xFE) ||| y) / 2 = x / 2 := by decide
  exact h a ha b (by omega)

lemma list_eq_of_getD {l1 l2 : List Nat} (hlen : l1.length = l2.length)
    (h : ∀ k, k < l1.length → l1.getD k 0 = l2.getD k 0) : l1 = l2 := by
  apply List.ext_get hlen
  intro i h1 h2
  have hd := h i h1
  rw [List.getD_eq_getElem?_getD, List.getD_eq_getElem?_getD,
    List.getElem?_eq_getElem h1, List.getElem?_eq_getElem h2] at hd
  simpa using hd

/-! ## Characterizing `LSB.decode` -/

namespace LSB

lemma jsBit_le_one (L i : Nat) : jsBit L i ≤ 1 := by
  unfold jsBit
  omega

lemma payloadBit_le_one (data : Buffer) (i : Nat) : payloadBit data i ≤ 1 :=
  land_one_le_one _

/-- Accumulating single bits with `|=` in increasing positions sums them. -/
lemma orAccum (g : Nat → Nat) (hg : ∀ i, g i ≤ 1) :
    ∀ m, (List.range m).foldl (fun a i => if g i = 1 then a ||| 1 <<< i else a) 0
      = ∑ i ∈ Finset.range m, g i * 2 ^ i
  | 0 => by simp
  | m + 1 => by
      rw [List.range_succ, List.foldl_append, orAccum g hg m, Finset.sum_range_succ]
      simp only [List.foldl_cons, List.foldl_nil]
      have hb := sum_bits_lt g hg m
      by_cases hgm : g m = 1
      · rw [if_pos hgm, Nat.shiftLeft_eq, one_mul, lor_two_pow_of_lt hb, hgm,
          one_mul]
      · have h0 : g m = 0 := by have := hg m; omega
        rw [if_neg hgm, h0, zero_mul, Nat.add_zero]

lemma decodeLengthHeaderRaw_eq (s : Buffer) :
    decodeLengthHeaderRaw s = ∑ i ∈ Finset.range 32, (s.getD i 0 &&& 1) * 2 ^ i := by
  have h := orAccum (fun i => s.getD i 0 &&& 1) (fun i => land_one_le_one _) 32
  simpa [decodeLengthHeaderRaw, HEADER_SIZE_BITS_eq] using h

lemma length_foldl_decodeStep (s : Buffer) :
    ∀ (idxs : List Nat) (init : Buffer),
      (idxs.foldl (decodeStep s) init).length = init.length
  | [], _ => rfl
  | i :: rest, init => by
      rw [List.foldl_cons, length_foldl_decodeStep s rest (decodeStep s init i)]
      unfold decodeStep
      split
      · rw [List.length_set]
      · rfl

/-- The payload-extraction fold, cell by cell: after `m` of the `8 * L` steps,
byte `k` holds the bits collected so far for that byte, lowest first. -/
lemma decodeFold_getD (s : Buffer) (L : Nat) :
    ∀ m, m ≤ 8 * L → ∀ k,
      ((List.range m).foldl (decodeStep s) (List.replicate L 0)).getD k 0 =
        ∑ b ∈ Finset.range (min 8 (m - 8 * k)),
          (s.getD (8 * k + b + 32) 0 &&& 1) * 2 ^ b
  | 0, _, k => by simp
  | m + 1, hm, k => by
      rw [List.range_succ, List.foldl_append]
      simp only [List.foldl_cons, List.foldl_nil]
      have ih := decodeFold_getD s L m (by omega)
      set F := (List.range m).foldl (decodeStep s) (List.replicate L 0) with hF
      have hFlen : F.length = L := by
        rw [hF, length_foldl_decodeStep]
        exact List.length_replicate _ _
      have hsum_lt := sum_bits_lt (fun b => s.getD (8 * (m / 8) + b + 32) 0 &&& 1)
        (fun b => land_one_le_one _) (m % 8)
      unfold decodeStep
      by_cases hbit : s.getD (m + HEADER_SIZE_BITS) 0 &&& 1 = 1
      · rw [if_pos hbit]
        by_cases hk : k = m / 8
        · subst hk
          rw [getD_set_self, if_pos (by rw [hFlen]; omega), ih (m / 8)]
          have h1 : min 8 (m - 8 * (m / 8)) = m % 8 := by omega
          have h2 : min 8 (m + 1 - 8 * (m / 8)) = m % 8 + 1 := by omega
          rw [h1, h2, Finset.sum_range_succ, Nat.shiftLeft_eq, one_mul,
            lor_two_pow_of_lt (by simpa using hsum_lt)]
          have h3 : 8 * (m / 8) + m % 8 = m := by omega
          rw [h3]
          rw [show m + HEADER_SIZE_BITS = m + 32 from rfl] at hbit
          rw [hbit, one_mul]
        · rw [getD_set_ne _ _ (fun h => hk h.symm), ih k]
          have : min 8 (m - 8 * k) = min 8 (m + 1 - 8 * k) := by omega
          rw [this]
      · rw [if_neg hbit, ih k]
        by_cases hk : k = m / 8
        · subst hk
          have h1 : min 8 (m - 8 * (m / 8)) = m % 8 := by omega
          have h2 : min 8 (m + 1 - 8 * (m / 8)) = m % 8 + 1 := by omega
          rw [h1, h2, Finset.sum_range_succ]
          have h3 : 8 * (m / 8) + m % 8 = m := by omega
          rw [h3]
          have h0 : s.getD (m + 32) 0 &&& 1 = 0 := by
            have := land_one_le_one (s.getD (m + 32) 0)
            rw [show m + HEADER_SIZE_BITS = m + 32 from rfl] at hbit
            omega
          rw [h0, zero_mul, Nat.add_zero]
        · have : min 8 (m - 8 * k) = min 8 (m + 1 - 8 * k) := by omega
          rw [this]

/-- After all `8 * L` steps, byte `k` of the extraction is the full 8-bit sum. -/
lemma decodeFold_full (s : Buffer) (L k : Nat) (hk : k < L) :
    ((List.range (L * 8)).foldl (decodeStep s) (List.replicate L 0)).getD k 0 =
      ∑ b ∈ Finset.range 8, (s.getD (8 * k + b + 32) 0 &&& 1) * 2 ^ b := by
  rw [decodeFold_getD s L (L * 8) (by omega) k]
  have : min 8 (L * 8 - 8 * k) = 8 := by omega
  rw [this]

/-- Round trip for nonempty payloads: decoding an encoded buffer recovers the
payload byte-for-byte.  The bound `p.length < 2^31` is automatic for real Node
buffers (a cover of the required size could not exist otherwise); it is needed
here because the 32-bit length header is read back as a signed value. -/
theorem decode_encode_of_pos (p c : Buffer) (hp : isByteBuffer p)
    (hpos : 1 ≤ p.length) (hsz : p.length < 2147483648)
    (hc : (p.length + 4) * 8 ≤ c.length) :
    (encode p c).bind decode = Except.ok p := by
  rw [encode_ok hc]
  show decode (encodePayload p (encodeLengthHeader c p.length)) = Except.ok p
  set s := encodePayload p (encodeLengthHeader c p.length) with hs
  have hslen : s.length = c.length := by
    rw [hs]
    exact encodeResult_length p c
  -- the 32 header bits of the output are the bits of `p.length`
  have hbit : ∀ i, i < 32 → s.getD i 0 &&& 1 = p.length / 2 ^ i % 2 := by
    intro i hi
    rw [hs, encodeResult_getD, if_pos (by omega), if_pos hi,
      land_FE_lor_land_one _ _ (jsBit_le_one _ _)]
    unfold jsBit
    rw [Nat.mod_eq_of_lt (show p.length < 4294967296 by omega)]
  have hraw : decodeLengthHeaderRaw s = p.length := by
    rw [decodeLengthHeaderRaw_eq,
      Finset.sum_congr rfl (fun i hi => by
        rw [hbit i (Finset.mem_range.mp hi)]),
      sum_div_pow_mod 32 p.length (by omega)]
  have hdl : decodeLengthHeader s = (p.length : Int) := by
    unfold decodeLengthHeader
    rw [hraw]
    exact jsToInt32_of_lt hsz
  unfold decode
  simp only [HEADER_SIZE_BITS_eq]
  have hmax : ¬ (((p.length : Int) : Rat) > ((s.length : Rat) - ((32 : Nat) : Rat)) / 8) := by
    rw [not_lt, le_div_iff₀ (by norm_num : (0 : Rat) < 8)]
    have h8 : p.length * 8 + 32 ≤ s.length := by omega
    have hcast : (p.length : Rat) * 8 + 32 ≤ (s.length : Rat) := by
      exact_mod_cast h8
    push_cast
    linarith
  rw [if_neg (by omega), hdl, if_neg (by omega), if_neg hmax,
    Int.toNat_natCast]
  refine congrArg Except.ok ?_
  apply list_eq_of_getD
  · rw [length_foldl_decodeStep, List.length_replicate]
  · intro k hk
    have hkp : k < p.length := by
      rwa [length_foldl_decodeStep, List.length_replicate] at hk
    rw [decodeFold_full s p.length k hkp]
    have hbyte : ∀ b, b < 8 →
        s.getD (8 * k + b + 32) 0 &&& 1 = p.getD k 0 / 2 ^ b % 2 := by
      intro b hb
      rw [hs, encodeResult_getD]
      have hj1 : 8 * k + b + 32 < c.length := by omega
      have hj2 : ¬ (8 * k + b + 32 < 32) := by omega
      have hj3 : 8 * k + b + 32 < p.length * 8 + 32 := by omega
      rw [if_pos hj1, if_neg hj2, if_pos hj3,
        land_FE_lor_land_one _ _ (payloadBit_le_one _ _)]
      unfold payloadBit
      have he1 : (8 * k + b + 32) - 32 = 8 * k + b := by omega
      have he2 : (8 * k + b) / 8 = k := by omega
      have he3 : (8 * k + b) % 8 = b := by omega
      rw [he1, he2, he3, Nat.shiftRight_eq_div_pow, Nat.and_one_is_mod]
    rw [Finset.sum_congr rfl (fun b hb => by
      rw [hbyte b (Finset.mem_range.mp hb)])]
    have hpk : p.getD k 0 < 256 := by
      have hmem : p.getD k 0 ∈ p := by
        rw [List.getD_eq_getElem?_getD, List.getElem?_eq_getElem hkp]
        exact List.getElem_mem hkp
      exact hp _ hmem
    rw [sum_div_pow_mod 8 (p.getD k 0) (by omega)]

end LSB

/-! ## Engine lemmas -/

lemma fdiv_eight (a : Int) : Int.fdiv a 8 = a / 8 :=
  Int.fdiv_eq_ediv a (by norm_num)

lemma calculateCapacity_eq (cover : Buffer) :
    LSB.calculateCapacity cover = (((cover.length - 32) / 8 : Nat) : Int) := by
  unfold LSB.calculateCapacity
  simp only [LSB.HEADER_SIZE_BITS_eq]
  rw [fdiv_eight]
  omega

lemma calculateCapacity_nonneg (cover : Buffer) :
    0 ≤ LSB.calculateCapacity cover :=
  le_max_left _ _

lemma length_le_calculateCapacity {p c : Buffer}
    (h : (p.length + 4) * 8 ≤ c.length) :
    (p.length : Int) ≤ LSB.calculateCapacity c := by
  rw [calculateCapacity_eq]
  have : p.length ≤ (c.length - 32) / 8 := by omega
  exact_mod_cast this

lemma getNextCover_empty {e : StegEngine} (h : e.coverMediaPool = []) :
    e.getNextCover = (none, e) := by
  unfold StegEngine.getNextCover
  rw [if_pos (by rw [h]; rfl)]

lemma getNextCover_nonempty {e : StegEngine} (h : e.coverMediaPool ≠ []) :
    e.getNextCover = (e.coverMediaPool[e.coverIndex]?,
      { e with coverIndex := (e.coverIndex + 1) % e.coverMediaPool.length }) := by
  unfold StegEngine.getNextCover
  rw [if_neg (by simpa using h)]

/-- `handleError` followed by pairing with the current state is exactly the
spec's error-policy matrix. -/
lemma handleError_map_eq (e : StegEngine) (msg : String) (d : Buffer)
    (e' : StegEngine) :
    (e.handleError msg d).map (fun r => (r, e')) =
      specPolicyOutcome e.config.onError e.config.algorithm d msg e' := by
  unfold StegEngine.handleError specPolicyOutcome
  cases e.config.onError <;> rfl

lemma engineEncode_disabled {e : StegEngine} (data : Buffer)
    (h : e.config.enabled = false) :
    e.encode data =
      .ok ({ data := data, payloadSize := data.length, coverSize := data.length
             algorithm := e.config.algorithm, success := true, error := none }, e) := by
  unfold StegEngine.encode
  rw [if_pos h]

lemma engineEncode_noalg {e : StegEngine} (data : Buffer)
    (hen : e.config.enabled = true) (halg : e.algorithm = none) :
    e.encode data =
      specPolicyOutcome e.config.onError e.config.algorithm data
        "No algorithm set" e := by
  unfold StegEngine.encode
  rw [if_neg (by simp [hen]), halg]
  exact handleError_map_eq e _ data e

lemma engineEncode_nopool {e : StegEngine} {alg : StegAlgorithm} (data : Buffer)
    (hen : e.config.enabled = true) (halg : e.algorithm = some alg)
    (hpool : e.coverMediaPool = []) :
    e.encode data =
      specPolicyOutcome e.config.onError e.config.algorithm data
        "No cover media available" e := by
  unfold StegEngine.encode
  rw [if_neg (by simp [hen]), halg, getNextCover_empty hpool]
  exact handleError_map_eq e _ data e

lemma engineEncode_cursorOutOfRange {e : StegEngine} {alg : StegAlgorithm}
    (data : Buffer)
    (hen : e.config.enabled = true) (halg : e.algorithm = some alg)
    (hne : e.coverMediaPool ≠ [])
    (hcov : e.coverMediaPool[e.coverIndex]? = none) :
    e.encode data =
      specPolicyOutcome e.config.onError e.config.algorithm data
        "No cover media available"
        { e with coverIndex := (e.coverIndex + 1) % e.coverMediaPool.length } := by
  unfold StegEngine.encode
  rw [if_neg (by simp [hen]), halg, getNextCover_nonempty hne, hcov]
  dsimp only
  rw [halg]
  exact handleError_map_eq _ _ data _

lemma engineEncode_capacity {e : StegEngine} {alg : StegAlgorithm}
    {cover : CoverMedia} (data : Buffer)
    (hen : e.config.enabled = true) (halg : e.algorithm = some alg)
    (hcov : e.coverMediaPool[e.coverIndex]? = some cover)
    (hcap : (data.length : Int) > alg.calculateCapacity cover.data) :
    e.encode data =
      specPolicyOutcome e.config.onError e.config.algorithm data
        ("Data too large: " ++ toString data.length ++ " bytes > " ++
          toString (alg.calculateCapacity cover.data) ++ " capacity")
        { e with coverIndex := (e.coverIndex + 1) % e.coverMediaPool.length } := by
  have hne : e.coverMediaPool ≠ [] := by
    intro hnil
    rw [hnil] at hcov
    simp at hcov
  unfold StegEngine.encode
  rw [if_neg (by simp [hen]), halg, getNextCover_nonempty hne, hcov]
  dsimp only
  rw [if_pos hcap, halg]
  exact handleError_map_eq _ _ data _

lemma engineEncode_codecError {e : StegEngine} {alg : StegAlgorithm}
    {cover : CoverMedia} {msg : String} (data : Buffer)
    (hen : e.config.enabled = true) (halg : e.algorithm = some alg)
    (hcov : e.coverMediaPool[e.coverIndex]? = some cover)
    (hcap : ¬ ((data.length : Int) > alg.calculateCapacity cover.data))
    (henc : alg.encode data cover.data = .error msg) :
    e.encode data =
      specPolicyOutcome e.config.onError e.config.algorithm data
        ("Encoding failed: " ++ msg)
        { e with coverIndex := (e.coverIndex + 1) % e.coverMediaPool.length } := by
  have hne : e.coverMediaPool ≠ [] := by
    intro hnil
    rw [hnil] at hcov
    simp at hcov
  unfold StegEngine.encode
  rw [if_neg (by simp [hen]), halg, getNextCover_nonempty hne, hcov]
  dsimp only
  rw [if_neg hcap, henc]
  dsimp only
  rw [halg]
  exact handleError_map_eq _ _ data _

lemma engineEncode_ok {e : StegEngine} {alg : StegAlgorithm}
    {cover : CoverMedia} {out : Buffer} (data : Buffer)
    (hen : e.config.enabled = true) (halg : e.algorithm = some alg)
    (hcov : e.coverMediaPool[e.coverIndex]? = some cover)
    (hcap : ¬ ((data.length : Int) > alg.calculateCapacity cover.data))
    (henc : alg.encode data cover.data = .ok out) :
    e.encode data =
      .ok ({ data := out, payloadSize := data.length
             coverSize := cover.data.length, algorithm := e.config.algorithm
             success := true, error := none },
           { e with coverIndex := (e.coverIndex + 1) % e.coverMediaPool.length }) := by
  have hne : e.coverMediaPool ≠ [] := by
    intro hnil
    rw [hnil] at hcov
    simp at hcov
  unfold StegEngine.encode
  rw [if_neg (by simp [hen]), halg, getNextCover_nonempty hne, hcov]
  dsimp only
  rw [if_neg hcap, henc]
  dsimp only
  rw [halg]

lemma engineDecode_disabled {e : StegEngine} (s : Buffer)
    (h : e.config.enabled = false) :
    e.decode s =
      { data := s, payloadSize := s.length, algorithm := e.config.algorithm
        success := true, error := none } := by
  unfold StegEngine.decode
  rw [if_pos h]

lemma engineDecode_noalg {e : StegEngine} (s : Buffer)
    (hen : e.config.enabled = true) (halg : e.algorithm = none) :
    e.decode s =
      { data := [], payloadSize := 0, algorithm := e.config.algorithm
        success := false, error := some "No algorithm set" } := by
  unfold StegEngine.decode
  rw [if_neg (by simp [hen]), halg]

lemma engineDecode_codecError {e : StegEngine} {alg : StegAlgorithm}
    {msg : String} (s : Buffer)
    (hen : e.config.enabled = true) (halg : e.algorithm = some alg)
    (herr : alg.decode s = .error msg) :
    e.decode s =
      { data := [], payloadSize := 0, algorithm := e.config.algorithm
        success := false, error := some ("Decoding failed: " ++ msg) } := by
  unfold StegEngine.decode
  rw [if_neg (by simp [hen]), halg]
  dsimp only
  rw [herr]

/-! ## The claims -/

/-- C1: the spec claims `decode(encode(p, c)) = p` byte-for-byte for every
sufficiently covered payload, *including the empty payload*.  The code violates
this for the empty payload: `encode` succeeds (it writes a 32-bit zero length
header), but `decode` then rejects the decoded length `0` at its
`dataLength <= 0` check and throws `Invalid data length: zero or negative`.
This contradicts the repository's own test `should handle empty payload`
(tests/lsb-algorithm.test.ts), which uses exactly this input (empty payload,
64-byte zero cover) and expects a decoded length of 0.  This theorem evaluates
the code at that failing input.  (For nonempty payloads the round trip does
hold: `LSB.decode_encode_of_pos` above.) -/
theorem c1_empty_payload_roundtrip_fails :
    (LSB.encode ([] : Buffer) (List.replicate 64 0)).toOption.isSome = true ∧
    (LSB.encode ([] : Buffer) (List.replicate 64 0)).bind LSB.decode =
      Except.error "Invalid data length: zero or negative" := by
  decide

/-- C2: `calculateCapacity(cover)` is `max(0, floor((cover.length - 32) / 8))`
(equivalently, the truncated natural-number form `(cover.length - 32) / 8`),
and takes the values 8, 0, 0 and 1246 at cover lengths 100, 32, 31 and
10000. -/
theorem c2_calculate_capacity :
    (∀ cover : Buffer, LSB.calculateCapacity cover =
      max 0 (Int.fdiv ((cover.length : Int) - 32) 8)) ∧
    (∀ cover : Buffer,
      LSB.calculateCapacity cover = (((cover.length - 32) / 8 : Nat) : Int)) ∧
    LSB.calculateCapacity (List.replicate 100 0) = 8 ∧
    LSB.calculateCapacity (List.replicate 32 0) = 0 ∧
    LSB.calculateCapacity (List.replicate 31 0) = 0 ∧
    LSB.calculateCapacity (List.replicate 10000 0) = 1246 := by
  refine ⟨fun cover => rfl, fun cover => calculateCapacity_eq cover, ?_, ?_, ?_, ?_⟩
  all_goals rw [calculateCapacity_eq, List.length_replicate]
  all_goals norm_num

/-- C3: `encode` never mutates its cover (the embedding is purely functional,
mirroring the `Buffer.from(cover)` copy in the source) and returns a buffer of
the cover's length that differs from the cover only in bit 0 of the first
`(p.length + 4) * 8` bytes: every byte at or past that offset is returned
unchanged, and every byte's bits 1-7 are unchanged.  Concretely, encoding the
1-byte payload `0x42` into an all-`0xFF` cover of length 128 changes at most
40 bytes, and only in bit 0. -/
theorem c3_encode_minimal_mutation :
    (∀ (p c : Buffer), isByteBuffer c → (p.length + 4) * 8 ≤ c.length →
      ∃ r, LSB.encode p c = .ok r ∧
        r.length = c.length ∧
        (∀ j, (p.length + 4) * 8 ≤ j → r.getD j 0 = c.getD j 0) ∧
        (∀ j, r.getD j 0 / 2 = c.getD j 0 / 2)) ∧
    ((LSB.encode [0x42] (List.replicate 128 0xFF)).toOption.map (fun r =>
      decide (((List.range 128).countP (fun j => r.getD j 0 != 255)) ≤ 40) &&
      (List.range 128).all (fun j => r.getD j 0 / 2 == 127))) = some true := by
  constructor
  · intro p c hbytes hc
    refine ⟨_, LSB.encode_ok hc, LSB.encodeResult_length p c, ?_, ?_⟩
    · intro j hj
      rw [LSB.encodeResult_getD]
      by_cases hlen : j < c.length
      · rw [if_pos hlen, if_neg (by omega), if_neg (by omega)]
      · rw [if_neg hlen]
    · intro j
      rw [LSB.encodeResult_getD]
      by_cases hlen : j < c.length
      · have hcj := hbytes _ (getD_mem hlen)
        rw [if_pos hlen]
        by_cases h1 : j < 32
        · rw [if_pos h1, land_FE_lor_div_two hcj (LSB.jsBit_le_one _ _)]
        · rw [if_neg h1]
          by_cases h2 : j < p.length * 8 + 32
          · rw [if_pos h2, land_FE_lor_div_two hcj (LSB.payloadBit_le_one _ _)]
          · rw [if_neg h2]
      · rw [if_neg hlen]
  · decide

/-- Witness for C3: the general statement applied to the 1-byte payload `[1]`
and a 40-byte zero cover. -/
theorem c3_witness :
    ∃ r, LSB.encode [1] (List.replicate 40 0) = .ok r ∧
      r.length = (List.replicate 40 (0 : Nat)).length ∧
      (∀ j, (([1] : Buffer).length + 4) * 8 ≤ j →
        r.getD j 0 = (List.replicate 40 (0 : Nat)).getD j 0) ∧
      (∀ j, r.getD j 0 / 2 = (List.replicate 40 (0 : Nat)).getD j 0 / 2) :=
  c3_encode_minimal_mutation.1 [1] (List.replicate 40 0) (by decide) (by decide)

/-- C4: every decode failure surfaces as a failure value and is never routed
through the `onError` policy.  At the codec level: a buffer shorter than 32
bytes fails with the framing error; a decoded header length `<= 0` fails with
the zero-or-negative error; a positive decoded length exceeding
`floor((len - 32) / 8)` fails with the exceeds-maximum error.  At the engine
level (enabled): with no codec set, `decode` returns the empty-payload failure
result, and a codec decode failure returns the empty-payload failure result
with the codec's message — in both cases the result is a returned value (the
engine's `decode` is total, nothing is thrown) and does not depend on
`config.onError`, which does not occur in it. -/
theorem c4_decode_failures :
    (∀ s : Buffer, s.length < 32 →
      LSB.decode s = .error "Data too small to contain valid steganographic content") ∧
    (∀ s : Buffer, 32 ≤ s.length → LSB.decodeLengthHeader s ≤ 0 →
      LSB.decode s = .error "Invalid data length: zero or negative") ∧
    (∀ s : Buffer, 32 ≤ s.length → 0 < LSB.decodeLengthHeader s →
      Int.fdiv ((s.length : Int) - 32) 8 < LSB.decodeLengthHeader s →
      LSB.decode s = .error ("Invalid data length: " ++
        toString (LSB.decodeLengthHeader s) ++ " exceeds maximum " ++
        toString (Int.fdiv ((s.length : Int) - 32) 8))) ∧
    (∀ (e : StegEngine) (s : Buffer),
      e.config.enabled = true → e.algorithm = none →
      e.decode s = { data := [], payloadSize := 0, algorithm := e.config.algorithm
                     success := false, error := some "No algorithm set" }) ∧
    (∀ (e : StegEngine) (alg : StegAlgorithm) (s : Buffer) (msg : String),
      e.config.enabled = true → e.algorithm = some alg →
      alg.decode s = .error msg →
      e.decode s = { data := [], payloadSize := 0, algorithm := e.config.algorithm
                     success := false, error := some ("Decoding failed: " ++ msg) }) := by
  refine ⟨?_, ?_, ?_, ?_, ?_⟩
  · intro s h
    unfold LSB.decode
    simp only [LSB.HEADER_SIZE_BITS_eq]
    rw [if_pos h]
  · intro s h h0
    unfold LSB.decode
    simp only [LSB.HEADER_SIZE_BITS_eq]
    rw [if_neg (by omega), if_pos h0]
  · intro s h h0 hfd
    rw [fdiv_eight] at hfd
    have hgt : (LSB.decodeLengthHeader s : Rat) >
        ((s.length : Rat) - ((32 : Nat) : Rat)) / 8 := by
      rw [gt_iff_lt, div_lt_iff₀ (by norm_num : (0 : Rat) < 8)]
      have hstep := Int.lt_ediv_add_one_mul_self ((s.length : Int) - 32)
        (by norm_num : (0 : Int) < 8)
      have hle : ((s.length : Int) - 32) / 8 + 1 ≤ LSB.decodeLengthHeader s := by
        omega
      have hint : (s.length : Int) - 32 < LSB.decodeLengthHeader s * 8 := by
        calc (s.length : Int) - 32 < (((s.length : Int) - 32) / 8 + 1) * 8 := hstep
        _ ≤ LSB.decodeLengthHeader s * 8 := by
            exact mul_le_mul_of_nonneg_right hle (by norm_num)
      have hrat : (s.length : Rat) - 32 <
          (LSB.decodeLengthHeader s : Rat) * 8 := by
        exact_mod_cast hint
      push_cast
      linarith
    unfold LSB.decode
    simp only [LSB.HEADER_SIZE_BITS_eq]
    rw [if_neg (by omega), if_neg (by omega), if_pos hgt]
    rfl
  · intro e s hen halg
    exact engineDecode_noalg s hen halg
  · intro e alg s msg hen halg herr
    exact engineDecode_codecError s hen halg herr

/-- Witness for C4: the five failure shapes at concrete inputs — a 31-byte
buffer, a 32-byte zero buffer (header 0), a 32-byte buffer whose header
decodes to 1 with no room for a payload, a fresh engine with no codec, and an
engine whose LSB codec rejects an empty buffer. -/
theorem c4_witness :
    LSB.decode (List.replicate 31 0) =
      .error "Data too small to contain valid steganographic content" ∧
    LSB.decode (List.replicate 32 0) =
      .error "Invalid data length: zero or negative" ∧
    LSB.decode (1 :: List.replicate 31 0) =
      .error ("Invalid data length: " ++
        toString (LSB.decodeLengthHeader (1 :: List.replicate 31 0)) ++
        " exceeds maximum " ++
        toString (Int.fdiv (((1 :: List.replicate 31 (0 : Nat)).length : Int) - 32) 8)) ∧
    (StegEngine.init ⟨none, none, none, none⟩).decode (List.replicate 32 0) =
      { data := [], payloadSize := 0
        algorithm := (StegEngine.init ⟨none, none, none, none⟩).config.algorithm
        success := false, error := some "No algorithm set" } ∧
    ((StegEngine.init ⟨none, none, none, none⟩).setAlgorithm lsbAlgorithm).decode [] =
      { data := [], payloadSize := 0
        algorithm := ((StegEngine.init ⟨none, none, none, none⟩).setAlgorithm
          lsbAlgorithm).config.algorithm
        success := false
        error := some ("Decoding failed: " ++
          "Data too small to contain valid steganographic content") } :=
  ⟨c4_decode_failures.1 (List.replicate 31 0) (by decide),
   c4_decode_failures.2.1 (List.replicate 32 0) (by decide) (by decide),
   c4_decode_failures.2.2.1 (1 :: List.replicate 31 0) (by decide) (by decide)
     (by decide),
   c4_decode_failures.2.2.2.1 (StegEngine.init ⟨none, none, none, none⟩)
     (List.replicate 32 0) rfl rfl,
   c4_decode_failures.2.2.2.2
     ((StegEngine.init ⟨none, none, none, none⟩).setAlgorithm lsbAlgorithm)
     lsbAlgorithm [] "Data too small to contain valid steganographic content"
     rfl rfl (by decide)⟩

/-- C5: at every `encode` failure site — no codec set, empty cover pool,
payload exceeding the freshly computed capacity, codec throw — the configured
`onError` policy uniformly determines the outcome: `passthrough` returns a
failure result whose `data` is the original unmodified payload, `drop` returns
a failure result with empty `data` and `payloadSize = 0`, and `throw` raises
(the `Except.error` case) instead of returning a result. -/
theorem c5_error_policy_matrix :
    ∀ (e : StegEngine) (data : Buffer), e.config.enabled = true →
    ∀ msg : String,
    ((e.algorithm = none ∧ msg = "No algorithm set") ∨
     (∃ alg, e.algorithm = some alg ∧ e.coverMediaPool = [] ∧
       msg = "No cover media available") ∨
     (∃ alg cover, e.algorithm = some alg ∧
       e.coverMediaPool[e.coverIndex]? = some cover ∧
       (data.length : Int) > alg.calculateCapacity cover.data ∧
       msg = "Data too large: " ++ toString data.length ++ " bytes > " ++
         toString (alg.calculateCapacity cover.data) ++ " capacity") ∨
     (∃ alg cover m, e.algorithm = some alg ∧
       e.coverMediaPool[e.coverIndex]? = some cover ∧
       ¬ ((data.length : Int) > alg.calculateCapacity cover.data) ∧
       alg.encode data cover.data = .error m ∧
       msg = "Encoding failed: " ++ m)) →
    (e.config.onError = .passthrough →
      ∃ e', e.encode data =
        .ok ({ data := data, payloadSize := data.length, coverSize := data.length
               algorithm := e.config.algorithm, success := false
               error := some msg }, e')) ∧
    (e.config.onError = .drop →
      ∃ e', e.encode data =
        .ok ({ data := [], payloadSize := 0, coverSize := 0
               algorithm := e.config.algorithm, success := false
               error := some msg }, e')) ∧
    (e.config.onError = .throw → e.encode data = .error msg) := by
  intro e data hen msg hsite
  have hout : ∃ e', e.encode data =
      specPolicyOutcome e.config.onError e.config.algorithm data msg e' := by
    rcases hsite with ⟨halg, rfl⟩ | ⟨alg, halg, hpool, rfl⟩ |
      ⟨alg, cover, halg, hcov, hcap, rfl⟩ |
      ⟨alg, cover, m, halg, hcov, hcap, henc, rfl⟩
    · exact ⟨e, engineEncode_noalg data hen halg⟩
    · exact ⟨e, engineEncode_nopool data hen halg hpool⟩
    · exact ⟨_, engineEncode_capacity data hen halg hcov hcap⟩
    · exact ⟨_, engineEncode_codecError data hen halg hcov hcap henc⟩
  obtain ⟨e', he'⟩ := hout
  refine ⟨?_, ?_, ?_⟩ <;> intro hpol <;> rw [he', hpol]
  · exact ⟨e', rfl⟩
  · exact ⟨e', rfl⟩
  · rfl

/-- Witness for C5: a fresh engine with no codec set, under each of the three
policies, encoding the payload `[1, 2]`. -/
theorem c5_witness :
    (∃ e', (StegEngine.init ⟨none, none, none, none⟩).encode [1, 2] =
      .ok ({ data := [1, 2], payloadSize := ([1, 2] : Buffer).length
             coverSize := ([1, 2] : Buffer).length
             algorithm := (StegEngine.init ⟨none, none, none, none⟩).config.algorithm
             success := false, error := some "No algorithm set" }, e')) ∧
    (∃ e', (StegEngine.init ⟨none, none, none, some .drop⟩).encode [1, 2] =
      .ok ({ data := [], payloadSize := 0, coverSize := 0
             algorithm :=
               (StegEngine.init ⟨none, none, none, some .drop⟩).config.algorithm
             success := false, error := some "No algorithm set" }, e')) ∧
    (StegEngine.init ⟨none, none, none, some .throw⟩).encode [1, 2] =
      .error "No algorithm set" :=
  ⟨(c5_error_policy_matrix (StegEngine.init ⟨none, none, none, none⟩) [1, 2]
      rfl "No algorithm set" (Or.inl ⟨rfl, rfl⟩)).1 rfl,
   (c5_error_policy_matrix (StegEngine.init ⟨none, none, none, some .drop⟩) [1, 2]
      rfl "No algorithm set" (Or.inl ⟨rfl, rfl⟩)).2.1 rfl,
   (c5_error_policy_matrix (StegEngine.init ⟨none, none, none, some .throw⟩) [1, 2]
      rfl "No algorithm set" (Or.inl ⟨rfl, rfl⟩)).2.2 rfl⟩

/-- C6: cover selection is round-robin — `getNextCover` returns
`pool[cursor]` and advances the cursor to `(cursor + 1) mod pool.length` —
and, concretely, an engine holding covers `A, B` (added in that order) with
the LSB codec uses cover `A`, then `B`, then `A` again on three successive
`encode` calls with the same payload.  Selection is deterministic: the
embedding is a pure function of the engine state. -/
theorem c6_round_robin :
    (∀ e : StegEngine, e.coverMediaPool ≠ [] →
      e.getNextCover = (e.coverMediaPool[e.coverIndex]?,
        { e with coverIndex := (e.coverIndex + 1) % e.coverMediaPool.length })) ∧
    (∀ (p A B : Buffer),
      (p.length + 4) * 8 ≤ A.length → (p.length + 4) * 8 ≤ B.length →
      ∃ sA sB, LSB.encode p A = .ok sA ∧ LSB.encode p B = .ok sB ∧
      ∃ r1 e1 r2 e2 r3 e3,
        ((((StegEngine.init ⟨none, none, none, none⟩).setAlgorithm
            lsbAlgorithm).addCoverMedia (.buffer A)).addCoverMedia
            (.buffer B)).encode p = .ok (r1, e1) ∧ r1.data = sA ∧
        e1.encode p = .ok (r2, e2) ∧ r2.data = sB ∧
        e2.encode p = .ok (r3, e3) ∧ r3.data = sA) := by
  constructor
  · intro e h
    exact getNextCover_nonempty h
  · intro p A B hA hB
    obtain ⟨sA, hsA⟩ : ∃ s, LSB.encode p A = .ok s := ⟨_, LSB.encode_ok hA⟩
    obtain ⟨sB, hsB⟩ : ∃ s, LSB.encode p B = .ok s := ⟨_, LSB.encode_ok hB⟩
    have h1 : (⟨⟨true, "lsb", [], .passthrough⟩, some lsbAlgorithm,
        [⟨A, "binary", LSB.calculateCapacity A⟩,
         ⟨B, "binary", LSB.calculateCapacity B⟩], 0⟩ : StegEngine).encode p =
        .ok ({ data := sA, payloadSize := p.length, coverSize := A.length
               algorithm := "lsb", success := true, error := none },
             ⟨⟨true, "lsb", [], .passthrough⟩, some lsbAlgorithm,
              [⟨A, "binary", LSB.calculateCapacity A⟩,
               ⟨B, "binary", LSB.calculateCapacity B⟩], 1⟩) := by
      rw [@engineEncode_ok
        ⟨⟨true, "lsb", [], .passthrough⟩, some lsbAlgorithm,
         [⟨A, "binary", LSB.calculateCapacity A⟩,
          ⟨B, "binary", LSB.calculateCapacity B⟩], 0⟩
        lsbAlgorithm ⟨A, "binary", LSB.calculateCapacity A⟩ sA p rfl rfl rfl
        (not_lt.mpr (length_le_calculateCapacity hA)) hsA]
      simp
    have h2 : (⟨⟨true, "lsb", [], .passthrough⟩, some lsbAlgorithm,
        [⟨A, "binary", LSB.calculateCapacity A⟩,
         ⟨B, "binary", LSB.calculateCapacity B⟩], 1⟩ : StegEngine).encode p =
        .ok ({ data := sB, payloadSize := p.length, coverSize := B.length
               algorithm := "lsb", success := true, error := none },
             ⟨⟨true, "lsb", [], .passthrough⟩, some lsbAlgorithm,
              [⟨A, "binary", LSB.calculateCapacity A⟩,
               ⟨B, "binary", LSB.calculateCapacity B⟩], 0⟩) := by
      rw [@engineEncode_ok
        ⟨⟨true, "lsb", [], .passthrough⟩, some lsbAlgorithm,
         [⟨A, "binary", LSB.calculateCapacity A⟩,
          ⟨B, "binary", LSB.calculateCapacity B⟩], 1⟩
        lsbAlgorithm ⟨B, "binary", LSB.calculateCapacity B⟩ sB p rfl rfl rfl
        (not_lt.mpr (length_le_calculateCapacity hB)) hsB]
      simp
    refine ⟨sA, sB, hsA, hsB,
      { data := sA, payloadSize := p.length, coverSize := A.length
        algorithm := "lsb", success := true, error := none },
      ⟨⟨true, "lsb", [], .passthrough⟩, some lsbAlgorithm,
       [⟨A, "binary", LSB.calculateCapacity A⟩,
        ⟨B, "binary", LSB.calculateCapacity B⟩], 1⟩,
      { data := sB, payloadSize := p.length, coverSize := B.length
        algorithm := "lsb", success := true, error := none },
      ⟨⟨true, "lsb", [], .passthrough⟩, some lsbAlgorithm,
       [⟨A, "binary", LSB.calculateCapacity A⟩,
        ⟨B, "binary", LSB.calculateCapacity B⟩], 0⟩,
      { data := sA, payloadSize := p.length, coverSize := A.length
        algorithm := "lsb", success := true, error := none },
      ⟨⟨true, "lsb", [], .passthrough⟩, some lsbAlgorithm,
       [⟨A, "binary", LSB.calculateCapacity A⟩,
        ⟨B, "binary", LSB.calculateCapacity B⟩], 1⟩, ?_, rfl, ?_, rfl, ?_, rfl⟩
    · exact h1
    · exact h2
    · exact h1

/-- C7: with `enabled = false`, `encode` returns `{success: true, data: p}`
with the payload unchanged and the engine state untouched, `decode` likewise
returns its input unchanged as a success, and the result does not depend on
the codec: for every installed codec (or none), the disabled `encode` returns
the same result. -/
theorem c7_disabled_passthrough :
    ∀ (e : StegEngine) (data : Buffer), e.config.enabled = false →
      e.encode data =
        .ok ({ data := data, payloadSize := data.length, coverSize := data.length
               algorithm := e.config.algorithm, success := true
               error := none }, e) ∧
      e.decode data =
        { data := data, payloadSize := data.length
          algorithm := e.config.algorithm, success := true, error := none } ∧
      (∀ alg' : Option StegAlgorithm,
        ({ e with algorithm := alg' } : StegEngine).encode data =
          .ok ({ data := data, payloadSize := data.length
                 coverSize := data.length, algorithm := e.config.algorithm
                 success := true, error := none },
               { e with algorithm := alg' })) := by
  intro e data h
  refine ⟨engineEncode_disabled data h, engineDecode_disabled data h, ?_⟩
  intro alg'
  exact engineEncode_disabled data h

/-- Witness for C7: a disabled engine and the payload `[9]`. -/
theorem c7_witness :
    (StegEngine.init ⟨some false, none, none, none⟩).encode [9] =
      .ok ({ data := [9], payloadSize := ([9] : Buffer).length
             coverSize := ([9] : Buffer).length
             algorithm :=
               (StegEngine.init ⟨some false, none, none, none⟩).config.algorithm
             success := true, error := none },
           StegEngine.init ⟨some false, none, none, none⟩) ∧
    (StegEngine.init ⟨some false, none, none, none⟩).decode [9] =
      { data := [9], payloadSize := ([9] : Buffer).length
        algorithm :=
          (StegEngine.init ⟨some false, none, none, none⟩).config.algorithm
        success := true, error := none } :=
  ⟨(c7_disabled_passthrough (StegEngine.init ⟨some false, none, none, none⟩)
      [9] rfl).1,
   (c7_disabled_passthrough (StegEngine.init ⟨some false, none, none, none⟩)
      [9] rfl).2.1⟩

/-- Witness for C6: the round-robin scenario with payload `[7]` and two
distinct 40-byte covers. -/
theorem c6_witness :
    ∃ sA sB, LSB.encode [7] (List.replicate 40 0) = .ok sA ∧
      LSB.encode [7] (List.replicate 40 1) = .ok sB ∧
      ∃ r1 e1 r2 e2 r3 e3,
        ((((StegEngine.init ⟨none, none, none, none⟩).setAlgorithm
            lsbAlgorithm).addCoverMedia
            (.buffer (List.replicate 40 0))).addCoverMedia
            (.buffer (List.replicate 40 1))).encode [7] = .ok (r1, e1) ∧
          r1.data = sA ∧
        e1.encode [7] = .ok (r2, e2) ∧ r2.data = sB ∧
        e2.encode [7] = .ok (r3, e3) ∧ r3.data = sA :=
  c6_round_robin.2 [7] (List.replicate 40 0) (List.replicate 40 1)
    (by decide) (by decide)

/-- C8 counterexample: the claim says that whenever `updateConfig` replaces
`coverMedia` the round-robin cursor is reset to 0.  It is not: the code's
`updateConfig` rebuilds the pool but never touches `coverIndex`.  Concretely,
an engine built with two covers whose cursor has advanced to 1 after one
successful encode keeps cursor 1 after `updateConfig` replaces the pool with a
single fresh cover — even though the pool really was rebuilt from the new
cover media (second conjunct). -/
theorem c8_counterexample_cursor_not_reset :
    (StegEngine.updateConfig
      ((((StegEngine.init ⟨none, none,
          some [.buffer (List.replicate 40 0), .buffer (List.replicate 48 1)],
          none⟩).setAlgorithm lsbAlgorithm).encode [7]).map Prod.snd
        |>.toOption.getD (StegEngine.init ⟨none, none, none, none⟩))
      ⟨none, none, some [.buffer (List.replicate 40 2)], none⟩).coverIndex = 1 ∧
    (StegEngine.updateConfig
      ((((StegEngine.init ⟨none, none,
          some [.buffer (List.replicate 40 0), .buffer (List.replicate 48 1)],
          none⟩).setAlgorithm lsbAlgorithm).encode [7]).map Prod.snd
        |>.toOption.getD (StegEngine.init ⟨none, none, none, none⟩))
      ⟨none, none, some [.buffer (List.replicate 40 2)], none⟩).coverMediaPool.map
        CoverMedia.data = [List.replicate 40 2] := by
  constructor
  · decide
  · decide

/-- C8 (amended): whenever `updateConfig` is called with a replacement
`coverMedia`, the entire cover pool is rebuilt from scratch from the new list
(all old entries dropped); the round-robin cursor is NOT reset — it keeps its
previous value. -/
theorem c8_update_rebuilds_pool_cursor_unchanged :
    ∀ (e : StegEngine) (p : PartialStegConfig) (l : List CoverInput),
      p.coverMedia = some l →
      (e.updateConfig p).coverMediaPool = normalizeCoverMediaPool e.algorithm l ∧
      (e.updateConfig p).coverIndex = e.coverIndex := by
  intro e p l h
  unfold StegEngine.updateConfig
  simp [mergeConfig, h]

/-- Witness for C8 (amended): a fresh engine, updated with a single 8-byte
cover. -/
theorem c8_witness :
    ((StegEngine.init ⟨none, none, none, none⟩).updateConfig
        ⟨none, none, some [CoverInput.buffer (List.replicate 8 0)], none⟩).coverMediaPool =
      normalizeCoverMediaPool (StegEngine.init ⟨none, none, none, none⟩).algorithm
        [CoverInput.buffer (List.replicate 8 0)] ∧
    ((StegEngine.init ⟨none, none, none, none⟩).updateConfig
        ⟨none, none, some [CoverInput.buffer (List.replicate 8 0)], none⟩).coverIndex =
      (StegEngine.init ⟨none, none, none, none⟩).coverIndex :=
  c8_update_rebuilds_pool_cursor_unchanged
    (StegEngine.init ⟨none, none, none, none⟩)
    ⟨none, none, some [CoverInput.buffer (List.replicate 8 0)], none⟩
    [CoverInput.buffer (List.replicate 8 0)] rfl

/-- C9 counterexample: the claim says every pooled `CoverMedium` has
`capacity >= 0`, including covers added via `addCoverMedia` with no codec set.
It does not hold: with no codec, `normalizeSingleCover` computes
`Math.floor((length - 4) / 8)`, which is `-1` for a buffer shorter than 4
bytes — here the pool of an engine holding an empty buffer carries capacity
`-1`. -/
theorem c9_counterexample_negative_capacity :
    ((StegEngine.init ⟨none, none, none, none⟩).addCoverMedia
      (.buffer [])).coverMediaPool.map CoverMedia.capacity = [-1] := by
  decide

/-- C9 (amended): a cover normalized while the LSB codec is active always gets
a nonnegative capacity (LSB's `calculateCapacity` clamps at 0); with no codec
set, a raw buffer gets the heuristic `floor((length - 4) / 8)`, which is
nonnegative exactly when the buffer has at least 4 bytes, is never below `-1`,
and equals `-1` for buffers shorter than 4 bytes. -/
theorem c9_capacity_bounds :
    (∀ (b : Buffer) (m : CoverMedia),
      normalizeSingleCover (some lsbAlgorithm) (.buffer b) = some m →
      0 ≤ m.capacity) ∧
    (∀ (b : Buffer) (m : CoverMedia), 4 ≤ b.length →
      normalizeSingleCover none (.buffer b) = some m → 0 ≤ m.capacity) ∧
    (∀ (b : Buffer) (m : CoverMedia),
      normalizeSingleCover none (.buffer b) = some m → -1 ≤ m.capacity) ∧
    (∀ (b : Buffer) (m : CoverMedia), b.length < 4 →
      normalizeSingleCover none (.buffer b) = some m → m.capacity = -1) := by
  refine ⟨?_, ?_, ?_, ?_⟩
  · intro b m h
    injection h with h'
    subst h'
    exact calculateCapacity_nonneg b
  · intro b m hlen h
    injection h with h'
    subst h'
    show (0 : Int) ≤ Int.fdiv ((b.length : Int) - 4) 8
    rw [fdiv_eight]
    omega
  · intro b m h
    injection h with h'
    subst h'
    show (-1 : Int) ≤ Int.fdiv ((b.length : Int) - 4) 8
    rw [fdiv_eight]
    omega
  · intro b m hlen h
    injection h with h'
    subst h'
    show Int.fdiv ((b.length : Int) - 4) 8 = -1
    rw [fdiv_eight]
    omega

/-- Witness for C9 (amended): a 40-byte cover under the LSB codec, an 8-byte
and an empty cover under no codec, each at its concrete normalized form. -/
theorem c9_witness :
    0 ≤ (⟨List.replicate 40 0, "binary",
          capacityFor (some lsbAlgorithm) (List.replicate 40 0)⟩ : CoverMedia).capacity ∧
    0 ≤ (⟨List.replicate 8 0, "binary",
          capacityFor none (List.replicate 8 0)⟩ : CoverMedia).capacity ∧
    -1 ≤ (⟨[], "binary", capacityFor none []⟩ : CoverMedia).capacity ∧
    (⟨[], "binary", capacityFor none []⟩ : CoverMedia).capacity = -1 :=
  ⟨c9_capacity_bounds.1 (List.replicate 40 0) _ rfl,
   c9_capacity_bounds.2.1 (List.replicate 8 0) _ (by decide) rfl,
   c9_capacity_bounds.2.2.1 [] _ rfl,
   c9_capacity_bounds.2.2.2 [] _ (by decide) rfl⟩

lemma foldl_add_capacity : ∀ (l : List CoverMedia) (init : Int),
    l.foldl (fun sum c => sum + c.capacity) init =
      init + (l.map CoverMedia.capacity).sum
  | [], init => by simp
  | c :: rest, init => by
      rw [List.foldl_cons, foldl_add_capacity rest (init + c.capacity)]
      simp [add_assoc]

/-- C10: `encode` validates the payload against a capacity freshly recomputed
by the active codec on the selected cover's bytes, never against the stored
`capacity` field of the pooled `CoverMedium`: the whole outcome of `encode`
(result and cursor movement) is unchanged when the pool's stored capacities
(and media kinds) are replaced arbitrarily, as long as the cover byte
sequences stay the same.  The stored capacities do feed `getPoolStats`
(second conjunct), and an engine whose single pooled cover declares a stale
capacity of 0 still encodes a 1-byte payload successfully (third conjunct). -/
theorem c10_capacity_checked_fresh :
    (∀ (cfg : StegConfig) (alg : Option StegAlgorithm) (idx : Nat)
       (pool1 pool2 : List CoverMedia) (data : Buffer),
      pool1.map CoverMedia.data = pool2.map CoverMedia.data →
      (StegEngine.encode ⟨cfg, alg, pool1, idx⟩ data).map
          (fun x => (x.1, x.2.coverIndex)) =
        (StegEngine.encode ⟨cfg, alg, pool2, idx⟩ data).map
          (fun x => (x.1, x.2.coverIndex))) ∧
    (∀ e : StegEngine, e.getPoolStats =
      { size := e.coverMediaPool.length
        totalCapacity := (e.coverMediaPool.map CoverMedia.capacity).sum
        averageCapacity := if e.coverMediaPool.length > 0 then
            Int.fdiv ((e.coverMediaPool.map CoverMedia.capacity).sum)
              (e.coverMediaPool.length : Int)
          else 0 }) ∧
    ((StegEngine.encode
        ⟨⟨true, "lsb", [], .passthrough⟩, some lsbAlgorithm,
         [⟨List.replicate 100 0, "test", 0⟩], 0⟩ [5]).map
      (fun x => x.1.success) = .ok true) := by
  refine ⟨?_, ?_, ?_⟩
  · intro cfg alg idx pool1 pool2 data hmap
    have hlen : pool1.length = pool2.length := by
      have h := congrArg List.length hmap
      simpa using h
    by_cases hen : cfg.enabled = true
    case neg =>
      have hen' : cfg.enabled = false := by
        revert hen
        cases cfg.enabled <;> simp
      rw [engineEncode_disabled data hen', engineEncode_disabled data hen']
      rfl
    case pos =>
      cases alg with
      | none =>
        rw [engineEncode_noalg data hen rfl, engineEncode_noalg data hen rfl]
        dsimp only
        cases hpol : cfg.onError <;> rfl
      | some a =>
        have hidx : pool1[idx]?.map CoverMedia.data =
            pool2[idx]?.map CoverMedia.data := by
          rw [← List.getElem?_map, ← List.getElem?_map, hmap]
        cases h1 : pool1[idx]? with
        | none =>
          have h2 : pool2[idx]? = none := by
            rw [h1] at hidx
            cases h2 : pool2[idx]? with
            | none => rfl
            | some c =>
                rw [h2] at hidx
                simp at hidx
          by_cases hemp : pool1 = []
          · have hemp2 : pool2 = [] := by
              apply List.length_eq_zero.mp
              rw [← hlen, hemp]
              rfl
            rw [engineEncode_nopool data hen rfl hemp,
              engineEncode_nopool data hen rfl hemp2]
            dsimp only
            cases hpol : cfg.onError <;> rfl
          · have hemp2 : pool2 ≠ [] := by
              intro hc
              apply hemp
              apply List.length_eq_zero.mp
              rw [hlen, hc]
              rfl
            rw [engineEncode_cursorOutOfRange data hen rfl hemp h1,
              engineEncode_cursorOutOfRange data hen rfl hemp2 h2]
            dsimp only
            cases hpol : cfg.onError <;> simp [specPolicyOutcome, hlen, Except.map]
        | some c1 =>
          obtain ⟨c2, h2, hdata⟩ :
              ∃ c2, pool2[idx]? = some c2 ∧ c2.data = c1.data := by
            rw [h1] at hidx
            cases h2 : pool2[idx]? with
            | none =>
                rw [h2] at hidx
                simp at hidx
            | some c2 =>
                rw [h2] at hidx
                simp at hidx
                exact ⟨c2, rfl, hidx.symm⟩
          by_cases hcap : (data.length : Int) > a.calculateCapacity c1.data
          · have hcap2 : (data.length : Int) > a.calculateCapacity c2.data := by
              rw [hdata]
              exact hcap
            rw [engineEncode_capacity data hen rfl h1 hcap,
              engineEncode_capacity data hen rfl h2 hcap2]
            dsimp only
            cases hpol : cfg.onError <;>
              simp [specPolicyOutcome, hlen, hdata, Except.map]
          · have hcap2 : ¬ ((data.length : Int) > a.calculateCapacity c2.data) := by
              rw [hdata]
              exact hcap
            cases henc : a.encode data c1.data with
            | error m =>
              have henc2 : a.encode data c2.data = .error m := by
                rw [hdata]
                exact henc
              rw [engineEncode_codecError data hen rfl h1 hcap henc,
                engineEncode_codecError data hen rfl h2 hcap2 henc2]
              dsimp only
              cases hpol : cfg.onError <;>
                simp [specPolicyOutcome, hlen, Except.map]
            | ok out =>
              have henc2 : a.encode data c2.data = .ok out := by
                rw [hdata]
                exact henc
              rw [engineEncode_ok data hen rfl h1 hcap henc,
                engineEncode_ok data hen rfl h2 hcap2 henc2]
              simp [hlen, hdata, Except.map]
  · intro e
    have hsum := foldl_add_capacity e.coverMediaPool 0
    rw [zero_add] at hsum
    unfold StegEngine.getPoolStats
    rw [hsum]
  · decide

/-- Witness for C10: two single-cover pools over the same 40-byte cover bytes,
one declaring stored capacity 5 and the other -7, produce identical encode
outcomes for the payload `[3]`. -/
theorem c10_witness :
    (StegEngine.encode
        ⟨⟨true, "lsb", [], .passthrough⟩, some lsbAlgorithm,
         [⟨List.replicate 40 0, "x", 5⟩], 0⟩ [3]).map
      (fun x => (x.1, x.2.coverIndex)) =
      (StegEngine.encode
        ⟨⟨true, "lsb", [], .passthrough⟩, some lsbAlgorithm,
         [⟨List.replicate 40 0, "x", -7⟩], 0⟩ [3]).map
      (fun x => (x.1, x.2.coverIndex)) :=
  c10_capacity_checked_fresh.1 ⟨true, "lsb", [], .passthrough⟩
    (some lsbAlgorithm) 0 [⟨List.replicate 40 0, "x", 5⟩]
    [⟨List.replicate 40 0, "x", -7⟩] [3] rfl

end LlmSteg
